import Mathlib

/-!
# Verification of the rd replay-debugger core

A shallow embedding, in Lean, of the parts of the `rd` record-and-replay
debugger that the specification's testable properties talk about:

* the seccomp-BPF filter rewriter (`src/seccomp_filter_rewriter.rs`),
* the GDB server's request handling (`src/commands/gdb_server.rs`),
* the record-time scratch-buffer protocol (`src/record_syscall.rs`).

Pure functions of the source are translated to Lean functions; stateful
methods become explicit state-passing functions.  Machine integers are
modelled as `Nat`/`Int` (the arithmetic involved never overflows; where a
truncating cast occurs in the source it is rendered as an explicit `%`).
Fatal assertions (`ed_assert!`, `.unwrap()`) are modelled by `Option`,
with `none` standing for the aborted execution.
-/

namespace Rd

/-! ## Seccomp filter rewriter (src/seccomp_filter_rewriter.rs)

Kernel ABI constants.  `SECCOMP_RET_*` live in the external
`kernel_supplement` module and `BPF_RET`/`BPF_K` in the generated kernel
bindings, neither of which is among the sources; the values are the fixed
Linux uapi values (`linux/seccomp.h`, `linux/bpf_common.h`). -/

def SECCOMP_RET_ALLOW : Nat := 0x7fff0000

def SECCOMP_RET_TRACE : Nat := 0x7ff00000

def SECCOMP_RET_DATA : Nat := 0x0000ffff

def BPF_RET : Nat := 0x06

def BPF_K : Nat := 0x00

/-- `pub const BASE_CUSTOM_DATA: u32 = 0x100;` — start numbering custom data
values from here, to avoid overlap with PTRACE_EVENT_EXIT values. -/
def BASE_CUSTOM_DATA : Nat := 0x100

/-- One BPF instruction (`struct sock_filter`): `code` is a u16, `jt`/`jf`
are u8, `k` is a u32. -/
structure sock_filter where
  code : Nat
  jt : Nat
  jf : Nat
  k : Nat
deriving DecidableEq, Repr

/-- `const fn BPF_CLASS(code: u16) -> u32 { code as u32 & 0x07 }` -/
def BPF_CLASS (code : Nat) : Nat := code &&& 0x07

/-- `const fn BPF_RVAL(code: u16) -> u32 { code as u32 & 0x18 }` -/
def BPF_RVAL (code : Nat) : Nat := code &&& 0x18

/-- The rewriter's two tables.  `result_to_index: HashMap<u32, u16>` is
modelled as an insertion-ordered association list (keys are kept distinct,
so the association list denotes the same map), `index_to_result: Vec<u32>`
as a list. -/
structure SeccompFilterRewriter where
  result_to_index : List (Nat × Nat)
  index_to_result : List Nat
deriving DecidableEq, Repr

/-- `SeccompFilterRewriter::default()`: both tables empty. -/
def SeccompFilterRewriter.default : SeccompFilterRewriter :=
  { result_to_index := [], index_to_result := [] }

/-- `result_to_index.get(&k)` on the association-list model. -/
def rtiGet (m : List (Nat × Nat)) (k : Nat) : Option Nat :=
  (m.find? (fun p => p.1 == k)).map (fun p => p.2)

/-- The body of the rewrite loop of `install_patched_seccomp_filter_arch`
(lines 137–159) for a single instruction `u`:

```
if BPF_CLASS(u.code) == BPF_RET {
    ed_assert_eq!(t, BPF_RVAL(u.code), BPF_K, ...);
    if u.k != SECCOMP_RET_ALLOW {
        if result_to_index.get(&u.k).is_none() {
            ed_assert!(t, BASE_CUSTOM_DATA as usize + index_to_result.len()
                          < SECCOMP_RET_DATA as usize, ...);
            result_to_index.insert(u.k, index_to_result.len() ...);
            index_to_result.push(u.k);
        }
        u.k = (BASE_CUSTOM_DATA + result_to_index[&u.k] as u32) | SECCOMP_RET_TRACE;
    }
}
```

`none` models a failed `ed_assert` (a `BPF_RET` that does not use `BPF_K`,
or too many distinct constants). -/
def rewrite_insn (rw : SeccompFilterRewriter) (u : sock_filter) :
    Option (SeccompFilterRewriter × sock_filter) :=
  if BPF_CLASS u.code = BPF_RET then
    if BPF_RVAL u.code = BPF_K then
      if u.k ≠ SECCOMP_RET_ALLOW then
        match rtiGet rw.result_to_index u.k with
        | some idx =>
            some (rw, { u with k := (BASE_CUSTOM_DATA + idx) ||| SECCOMP_RET_TRACE })
        | none =>
            if BASE_CUSTOM_DATA + rw.index_to_result.length < SECCOMP_RET_DATA then
              let idx := rw.index_to_result.length
              some ({ result_to_index := rw.result_to_index ++ [(u.k, idx)],
                      index_to_result := rw.index_to_result ++ [u.k] },
                    { u with k := (BASE_CUSTOM_DATA + idx) ||| SECCOMP_RET_TRACE })
            else none
      else some (rw, u)
    else none
  else some (rw, u)

/-- The `for u in &mut code` rewrite loop of
`install_patched_seccomp_filter_arch`, folded over the whole program. -/
def rewrite_filter (rw : SeccompFilterRewriter) :
    List sock_filter → Option (SeccompFilterRewriter × List sock_filter)
  | [] => some (rw, [])
  | u :: rest =>
    match rewrite_insn rw u with
    | none => none
    | some (rw1, u') =>
      match rewrite_filter rw1 rest with
      | none => none
      | some (rw2, rest') => some (rw2, u' :: rest')

/-- `SeccompFilterRewriter::map_filter_data_to_real_result`:

```
if (value as u32) < BASE_CUSTOM_DATA { return false; }
ed_assert!(t, (value as usize) < (BASE_CUSTOM_DATA as usize) + self.index_to_result.len());
*result = self.index_to_result[value as usize - BASE_CUSTOM_DATA as usize];
true
```

The outer `Option` models the `ed_assert` (`none` = aborted); the inner
`Option` models the `bool` return together with the out-parameter
(`some r` = returned `true` with `*result = r`, `none` = returned
`false`). -/
def map_filter_data_to_real_result (rw : SeccompFilterRewriter) (value : Nat) :
    Option (Option Nat) :=
  if value < BASE_CUSTOM_DATA then some none
  else if value < BASE_CUSTOM_DATA + rw.index_to_result.length then
    some (some (rw.index_to_result.getD (value - BASE_CUSTOM_DATA) 0))
  else none

/-- Well-formedness of the rewriter tables: `result_to_index` has distinct
keys, is inverse to `index_to_result`, and the number of assigned indices
respects the 16-bit data-field budget checked by the rewrite loop. -/
def SeccompFilterRewriter.WF (rw : SeccompFilterRewriter) : Prop :=
  (rw.result_to_index.map Prod.fst).Nodup ∧
  (∀ p ∈ rw.result_to_index,
      p.2 < rw.index_to_result.length ∧ rw.index_to_result.getD p.2 0 = p.1) ∧
  (∀ i < rw.index_to_result.length,
      rtiGet rw.result_to_index (rw.index_to_result.getD i 0) = some i) ∧
  BASE_CUSTOM_DATA + rw.index_to_result.length ≤ SECCOMP_RET_DATA

/-! ### Association-list and `getD` helper lemmas -/

theorem getD_append_left {α : Type _} :
    ∀ (l t : List α) (i : Nat) (d : α), i < l.length → (l ++ t).getD i d = l.getD i d
  | [], _, i, _, h => absurd h (by simp)
  | _ :: _, _, 0, _, _ => rfl
  | _ :: l, t, i + 1, d, h => getD_append_left l t i d (by simpa using h)

theorem getD_append_length {α : Type _} :
    ∀ (l : List α) (a d : α), (l ++ [a]).getD l.length d = a
  | [], _, _ => rfl
  | _ :: l, a, d => getD_append_length l a d

theorem rtiGet_eq_some_mem {m : List (Nat × Nat)} {k idx : Nat}
    (h : rtiGet m k = some idx) : (k, idx) ∈ m := by
  unfold rtiGet at h
  cases hf : m.find? (fun p => p.1 == k) with
  | none => rw [hf] at h; simp at h
  | some p =>
    rw [hf] at h
    have hmem := List.mem_of_find?_eq_some hf
    have hkey := List.find?_some (p := fun q : Nat × Nat => q.1 == k) hf
    have h2 : p.2 = idx := by simpa using h
    have h1 : p.1 = k := by simpa using hkey
    have : p = (k, idx) := by
      cases p; simp_all
    rw [← this]; exact hmem

theorem rtiGet_eq_none_not_mem {m : List (Nat × Nat)} {k : Nat}
    (h : rtiGet m k = none) : ∀ p ∈ m, p.1 ≠ k := by
  unfold rtiGet at h
  cases hf : m.find? (fun p => p.1 == k) with
  | none =>
    intro p hp hk
    have := List.find?_eq_none.mp hf p hp
    simp [hk] at this
  | some p => rw [hf] at h; simp at h

theorem rtiGet_append_of_some {m : List (Nat × Nat)} {k v : Nat} (l : List (Nat × Nat))
    (h : rtiGet m k = some v) : rtiGet (m ++ l) k = some v := by
  unfold rtiGet at h ⊢
  cases hf : m.find? (fun p => p.1 == k) with
  | none => rw [hf] at h; simp at h
  | some p =>
    rw [hf] at h
    rw [List.find?_append, hf]
    simpa using h

theorem rtiGet_append_of_none {m : List (Nat × Nat)} {k : Nat} (l : List (Nat × Nat))
    (h : rtiGet m k = none) : rtiGet (m ++ l) k = rtiGet l k := by
  unfold rtiGet at h ⊢
  cases hf : m.find? (fun p => p.1 == k) with
  | none => rw [List.find?_append, hf]; rfl
  | some p => rw [hf] at h; simp at h

theorem rtiGet_singleton_self (k v : Nat) : rtiGet [(k, v)] k = some v := by
  simp [rtiGet, List.find?]

/-! ### Single-instruction rewrite lemmas -/

/-- Rewriting an instruction only appends to both tables. -/
theorem rewrite_insn_grows {rw rw' : SeccompFilterRewriter} {u u' : sock_filter}
    (h : rewrite_insn rw u = some (rw', u')) :
    (∃ t, rw'.index_to_result = rw.index_to_result ++ t) ∧
    (∃ t, rw'.result_to_index = rw.result_to_index ++ t) := by
  by_cases hret : BPF_CLASS u.code = BPF_RET
  · by_cases hrval : BPF_RVAL u.code = BPF_K
    · by_cases hk : u.k = SECCOMP_RET_ALLOW
      · simp only [rewrite_insn, if_pos hret, if_pos hrval, if_neg (not_not_intro hk)] at h
        cases h
        exact ⟨⟨[], by simp⟩, ⟨[], by simp⟩⟩
      · simp only [rewrite_insn, if_pos hret, if_pos hrval, if_pos hk] at h
        cases hg : rtiGet rw.result_to_index u.k with
        | some idx =>
          simp only [hg] at h
          cases h
          exact ⟨⟨[], by simp⟩, ⟨[], by simp⟩⟩
        | none =>
          simp only [hg] at h
          by_cases hcap : BASE_CUSTOM_DATA + rw.index_to_result.length < SECCOMP_RET_DATA
          · rw [if_pos hcap] at h
            cases h
            exact ⟨⟨[u.k], rfl⟩, ⟨[(u.k, rw.index_to_result.length)], rfl⟩⟩
          · rw [if_neg hcap] at h
            cases h
    · simp only [rewrite_insn, if_pos hret, if_neg hrval] at h
      cases h
  · simp only [rewrite_insn, if_neg hret] at h
    cases h
    exact ⟨⟨[], by simp⟩, ⟨[], by simp⟩⟩

/-- Rewriting preserves well-formedness of the tables. -/
theorem rewrite_insn_WF {rw rw' : SeccompFilterRewriter} {u u' : sock_filter}
    (hwf : rw.WF) (h : rewrite_insn rw u = some (rw', u')) : rw'.WF := by
  obtain ⟨hnd, hfwd, hbwd, hlen⟩ := hwf
  by_cases hret : BPF_CLASS u.code = BPF_RET
  · by_cases hrval : BPF_RVAL u.code = BPF_K
    · by_cases hk : u.k = SECCOMP_RET_ALLOW
      · simp only [rewrite_insn, if_pos hret, if_pos hrval, if_neg (not_not_intro hk)] at h
        cases h
        exact ⟨hnd, hfwd, hbwd, hlen⟩
      · simp only [rewrite_insn, if_pos hret, if_pos hrval, if_pos hk] at h
        cases hg : rtiGet rw.result_to_index u.k with
        | some idx =>
          simp only [hg] at h
          cases h
          exact ⟨hnd, hfwd, hbwd, hlen⟩
        | none =>
          simp only [hg] at h
          by_cases hcap : BASE_CUSTOM_DATA + rw.index_to_result.length < SECCOMP_RET_DATA
          · rw [if_pos hcap] at h
            cases h
            constructor
            · -- Nodup of keys after appending the fresh key
              rw [List.map_append, List.nodup_append]
              refine ⟨hnd, by simp, ?_⟩
              intro a ha hb
              simp only [List.map_cons, List.map_nil, List.mem_singleton] at hb
              subst hb
              simp only [List.mem_map] at ha
              obtain ⟨p, hp, hpk⟩ := ha
              exact rtiGet_eq_none_not_mem hg p hp hpk
            constructor
            · -- forward direction of the bijection
              intro p hp
              rcases List.mem_append.mp hp with hp | hp
              · obtain ⟨h1, h2⟩ := hfwd p hp
                refine ⟨by simp; omega, ?_⟩
                rw [getD_append_left _ _ _ _ h1, h2]
              · simp only [List.mem_singleton] at hp
                subst hp
                refine ⟨by simp, ?_⟩
                exact getD_append_length _ _ _
            constructor
            · -- backward direction of the bijection
              intro i hi
              simp only [List.length_append, List.length_cons, List.length_nil] at hi
              rcases Nat.lt_or_ge i rw.index_to_result.length with hlt | hge
              · rw [getD_append_left _ _ _ _ hlt]
                exact rtiGet_append_of_some _ (hbwd i hlt)
              · have hieq : i = rw.index_to_result.length := by omega
                subst hieq
                rw [getD_append_length]
                rw [rtiGet_append_of_none _ hg]
                exact rtiGet_singleton_self _ _
            · -- capacity bound
              simp only [List.length_append, List.length_cons, List.length_nil]
              omega
          · rw [if_neg hcap] at h
            cases h
    · simp only [rewrite_insn, if_pos hret, if_neg hrval] at h
      cases h
  · simp only [rewrite_insn, if_neg hret] at h
    cases h
    exact ⟨hnd, hfwd, hbwd, hlen⟩

/-- A non-`ALLOW` constant `RET` is rewritten to `TRACE` carrying a fresh or
previously-assigned index that the (grown) `index_to_result` table maps back
to the original verdict. -/
theorem rewrite_insn_ret {rw rw' : SeccompFilterRewriter} {u u' : sock_filter}
    (hwf : rw.WF) (h : rewrite_insn rw u = some (rw', u'))
    (hret : BPF_CLASS u.code = BPF_RET) (hk : u.k ≠ SECCOMP_RET_ALLOW) :
    ∃ idx, idx < rw'.index_to_result.length ∧
      rw'.index_to_result.getD idx 0 = u.k ∧
      u' = { u with k := (BASE_CUSTOM_DATA + idx) ||| SECCOMP_RET_TRACE } := by
  obtain ⟨_, hfwd, _, _⟩ := hwf
  by_cases hrval : BPF_RVAL u.code = BPF_K
  · simp only [rewrite_insn, if_pos hret, if_pos hrval, if_pos hk] at h
    cases hg : rtiGet rw.result_to_index u.k with
    | some idx =>
      simp only [hg] at h
      cases h
      obtain ⟨h1, h2⟩ := hfwd _ (rtiGet_eq_some_mem hg)
      exact ⟨idx, h1, h2, rfl⟩
    | none =>
      simp only [hg] at h
      by_cases hcap : BASE_CUSTOM_DATA + rw.index_to_result.length < SECCOMP_RET_DATA
      · rw [if_pos hcap] at h
        cases h
        exact ⟨rw.index_to_result.length, by simp, getD_append_length _ _ _, rfl⟩
      · rw [if_neg hcap] at h
        cases h
  · simp only [rewrite_insn, if_pos hret, if_neg hrval] at h
    cases h

/-- `RET SECCOMP_RET_ALLOW` and non-`RET` instructions are left unchanged,
and so are the tables. -/
theorem rewrite_insn_unchanged {rw rw' : SeccompFilterRewriter} {u u' : sock_filter}
    (h : rewrite_insn rw u = some (rw', u'))
    (hu : BPF_CLASS u.code ≠ BPF_RET ∨ u.k = SECCOMP_RET_ALLOW) :
    u' = u ∧ rw' = rw := by
  rcases hu with hu | hu
  · simp only [rewrite_insn, if_neg hu] at h
    cases h; exact ⟨rfl, rfl⟩
  · by_cases hret : BPF_CLASS u.code = BPF_RET
    · by_cases hrval : BPF_RVAL u.code = BPF_K
      · simp only [rewrite_insn, if_pos hret, if_pos hrval, if_neg (not_not_intro hu)] at h
        cases h; exact ⟨rfl, rfl⟩
      · simp only [rewrite_insn, if_pos hret, if_neg hrval] at h
        cases h
    · simp only [rewrite_insn, if_neg hret] at h
      cases h; exact ⟨rfl, rfl⟩

/-- Looking up an assigned index through the data value `BASE_CUSTOM_DATA + idx`
recovers the table entry. -/
theorem map_filter_data_table (rw : SeccompFilterRewriter) (idx : Nat)
    (h : idx < rw.index_to_result.length) :
    map_filter_data_to_real_result rw (BASE_CUSTOM_DATA + idx) =
      some (some (rw.index_to_result.getD idx 0)) := by
  unfold map_filter_data_to_real_result
  rw [if_neg (by omega), if_pos (by omega)]
  simp

/-- Default instruction used with `List.getD`. -/
def sf0 : sock_filter := ⟨0, 0, 0, 0⟩

/-- The empty rewriter state is well-formed. -/
theorem SeccompFilterRewriter.WF_default : SeccompFilterRewriter.default.WF := by
  refine ⟨by simp [SeccompFilterRewriter.default], ?_, ?_, ?_⟩
  · intro p hp
    simp [SeccompFilterRewriter.default] at hp
  · intro i hi
    simp [SeccompFilterRewriter.default] at hi
  · simp [SeccompFilterRewriter.default, BASE_CUSTOM_DATA, SECCOMP_RET_DATA]

/-- Full characterisation of the rewrite loop: tables stay well-formed and
only grow, the instruction count is preserved, each non-`ALLOW` constant
`RET` gets a recorded index, and every other instruction is unchanged. -/
theorem rewrite_filter_spec :
    ∀ (code : List sock_filter) (rw rw' : SeccompFilterRewriter) (code' : List sock_filter),
      rw.WF → rewrite_filter rw code = some (rw', code') →
      rw'.WF ∧ (∃ t, rw'.index_to_result = rw.index_to_result ++ t) ∧
      code'.length = code.length ∧
      (∀ i, i < code.length →
        ((BPF_CLASS (code.getD i sf0).code = BPF_RET ∧
            (code.getD i sf0).k ≠ SECCOMP_RET_ALLOW) →
          ∃ idx, idx < rw'.index_to_result.length ∧
            rw'.index_to_result.getD idx 0 = (code.getD i sf0).k ∧
            code'.getD i sf0 =
              { code.getD i sf0 with k := (BASE_CUSTOM_DATA + idx) ||| SECCOMP_RET_TRACE }) ∧
        ((BPF_CLASS (code.getD i sf0).code ≠ BPF_RET ∨
            (code.getD i sf0).k = SECCOMP_RET_ALLOW) →
          code'.getD i sf0 = code.getD i sf0)) := by
  intro code
  induction code with
  | nil =>
    intro rw rw' code' hwf h
    simp only [rewrite_filter] at h
    cases h
    exact ⟨hwf, ⟨[], by simp⟩, rfl, fun i hi => absurd hi (by simp)⟩
  | cons u rest ih =>
    intro rw rw' code' hwf h
    simp only [rewrite_filter] at h
    cases h1 : rewrite_insn rw u with
    | none => simp only [h1] at h; cases h
    | some p =>
      obtain ⟨rw1, u'⟩ := p
      simp only [h1] at h
      cases h2 : rewrite_filter rw1 rest with
      | none => simp only [h2] at h; cases h
      | some q =>
        obtain ⟨rw2, rest'⟩ := q
        simp only [h2] at h
        injection h with h3
        injection h3 with ha hb
        subst ha
        subst hb
        have hwf1 := rewrite_insn_WF hwf h1
        obtain ⟨hwf2, ⟨t2, ht2⟩, hl, hspec⟩ := ih rw1 rw2 rest' hwf1 h2
        obtain ⟨⟨t1, ht1⟩, _⟩ := rewrite_insn_grows h1
        refine ⟨hwf2, ⟨t1 ++ t2, by rw [ht2, ht1, List.append_assoc]⟩, by simpa using hl, ?_⟩
        intro i hi
        cases i with
        | zero =>
          constructor
          · rintro ⟨hret, hk⟩
            simp only [List.getD_cons_zero] at hret hk ⊢
            obtain ⟨idx, hidx, hgetd, hu'⟩ := rewrite_insn_ret hwf h1 hret hk
            refine ⟨idx, ?_, ?_, ?_⟩
            · rw [ht2, List.length_append]; omega
            · rw [ht2, getD_append_left _ _ _ _ hidx, hgetd]
            · rw [hu']
          · intro hun
            simp only [List.getD_cons_zero] at hun ⊢
            exact (rewrite_insn_unchanged h1 hun).1
        | succ j =>
          have hj := hspec j (by simpa using hi)
          simpa only [List.getD_cons_succ] using hj

/-- **C1.** For every seccomp-BPF filter rewritten by
`install_patched_seccomp_filter` whose `RET` instructions all carry constant
(`BPF_K`) verdicts (modelled by the rewrite loop succeeding), every `RET`
whose verdict `v` is not `SECCOMP_RET_ALLOW` is rewritten to return
`SECCOMP_RET_TRACE | i` for a 16-bit datum `i` (one table index per distinct
verdict, numbered from `BASE_CUSTOM_DATA` upward) such that
`map_filter_data_to_real_result` succeeds on `i` with result `v`, while
`SECCOMP_RET_ALLOW` returns are left unchanged; in particular a filter whose
only return is the constant `0x30000` is rewritten so that its `RET` `k`
equals `SECCOMP_RET_TRACE | 0x100`, `index_to_result = [0x30000]`, and
`map_filter_data_to_real_result 0x100` yields `0x30000`. -/
theorem install_patched_seccomp_filter_rewrites_rets
    (rw rw' : SeccompFilterRewriter) (code code' : List sock_filter)
    (hwf : rw.WF) (h : rewrite_filter rw code = some (rw', code')) :
    (∀ i, i < code.length →
      (BPF_CLASS (code.getD i sf0).code = BPF_RET →
        (code.getD i sf0).k ≠ SECCOMP_RET_ALLOW →
          ∃ idx, BASE_CUSTOM_DATA + idx < 2 ^ 16 ∧
            code'.getD i sf0 =
              { code.getD i sf0 with
                k := SECCOMP_RET_TRACE ||| (BASE_CUSTOM_DATA + idx) } ∧
            map_filter_data_to_real_result rw' (BASE_CUSTOM_DATA + idx) =
              some (some (code.getD i sf0).k)) ∧
      (BPF_CLASS (code.getD i sf0).code = BPF_RET →
        (code.getD i sf0).k = SECCOMP_RET_ALLOW →
          code'.getD i sf0 = code.getD i sf0)) ∧
    (rewrite_filter SeccompFilterRewriter.default [⟨0x06, 0, 0, 0x30000⟩] =
      some ({ result_to_index := [(0x30000, 0)], index_to_result := [0x30000] },
            [⟨0x06, 0, 0, SECCOMP_RET_TRACE ||| 0x100⟩]) ∧
     map_filter_data_to_real_result
        { result_to_index := [(0x30000, 0)], index_to_result := [0x30000] } 0x100 =
          some (some 0x30000)) := by
  obtain ⟨hwf', _, _, hspec⟩ := rewrite_filter_spec code rw rw' code' hwf h
  constructor
  · intro i hi
    constructor
    · intro hret hk
      obtain ⟨idx, hidx, hgetd, heq⟩ := (hspec i hi).1 ⟨hret, hk⟩
      refine ⟨idx, ?_, ?_, ?_⟩
      · have := hwf'.2.2.2
        have : BASE_CUSTOM_DATA + idx < SECCOMP_RET_DATA := by omega
        simp only [SECCOMP_RET_DATA] at this
        omega
      · rw [heq, Nat.lor_comm]
      · rw [map_filter_data_table rw' idx hidx, hgetd]
    · intro hret hallow
      exact (hspec i hi).2 (Or.inr hallow)
  · constructor
    · decide
    · decide

/-- Closed witness for C1: the rewrite of the single-`RET 0x30000` filter
from the empty rewriter state, with both hypotheses discharged concretely. -/
theorem install_patched_seccomp_filter_rewrites_rets_witness :
    map_filter_data_to_real_result
      { result_to_index := [(0x30000, 0)], index_to_result := [0x30000] } 0x100 =
        some (some 0x30000) :=
  (install_patched_seccomp_filter_rewrites_rets
    SeccompFilterRewriter.default
    { result_to_index := [(0x30000, 0)], index_to_result := [0x30000] }
    [⟨0x06, 0, 0, 0x30000⟩]
    [⟨0x06, 0, 0, SECCOMP_RET_TRACE ||| 0x100⟩]
    SeccompFilterRewriter.WF_default (by decide)).2.2

/-- **C4 counterexample.** Installing the filter whose only return is the
constant `0x30000` records it with raw table index `0`
(`result_to_index[0x30000] = 0`), and applying
`map_filter_data_to_real_result` to that raw index does not succeed: it
returns `false` (modelled `some none`), because every value below
`BASE_CUSTOM_DATA = 0x100` is rejected.  So the round trip through the raw
index is not the identity on recorded verdicts. -/
theorem map_filter_data_raw_index_fails :
    rewrite_filter SeccompFilterRewriter.default [⟨0x06, 0, 0, 0x30000⟩] =
      some ({ result_to_index := [(0x30000, 0)], index_to_result := [0x30000] },
            [⟨0x06, 0, 0, SECCOMP_RET_TRACE ||| 0x100⟩]) ∧
    rtiGet [(0x30000, 0)] 0x30000 = some 0 ∧
    map_filter_data_to_real_result
      { result_to_index := [(0x30000, 0)], index_to_result := [0x30000] } 0 =
        some none := by
  refine ⟨by decide, by decide, by decide⟩

/-- **C4 (amended).** For every constant verdict `v` that has been entered
into the rewriter's tables by installing a filter containing it, applying
`map_filter_data_to_real_result` to `BASE_CUSTOM_DATA + result_to_index[v]`
(the datum the rewritten filter actually returns, not the raw table index)
succeeds and recovers `v`. -/
theorem map_filter_data_to_real_result_roundtrip
    (rw rw' : SeccompFilterRewriter) (code code' : List sock_filter)
    (hwf : rw.WF) (h : rewrite_filter rw code = some (rw', code'))
    (v idx : Nat) (hv : rtiGet rw'.result_to_index v = some idx) :
    map_filter_data_to_real_result rw' (BASE_CUSTOM_DATA + idx) = some (some v) := by
  obtain ⟨hwf', _, _, _⟩ := rewrite_filter_spec code rw rw' code' hwf h
  obtain ⟨h1, h2⟩ := hwf'.2.1 _ (rtiGet_eq_some_mem hv)
  rw [map_filter_data_table rw' idx h1, h2]

/-- Closed witness for the amended C4 at the single-`RET 0x30000` filter. -/
theorem map_filter_data_to_real_result_roundtrip_witness :
    map_filter_data_to_real_result
      { result_to_index := [(0x30000, 0)], index_to_result := [0x30000] }
      (BASE_CUSTOM_DATA + 0) = some (some 0x30000) :=
  map_filter_data_to_real_result_roundtrip
    SeccompFilterRewriter.default
    { result_to_index := [(0x30000, 0)], index_to_result := [0x30000] }
    [⟨0x06, 0, 0, 0x30000⟩]
    [⟨0x06, 0, 0, SECCOMP_RET_TRACE ||| 0x100⟩]
    SeccompFilterRewriter.WF_default (by decide) 0x30000 0 (by decide)

/-! ## GDB breakpoint conditions (src/commands/gdb_server.rs)

`GdbBreakpointCondition` holds a list of `GdbExpression`s.  Expression
evaluation itself lives in the external `gdb_expression` module; what the
condition code observes of each expression at hit time is only the outcome
of `e.evaluate(t, &mut v)`: failure, or success with the value `v.i`.  We
therefore model a condition by the list of those outcomes: `none` for a
failed evaluation, `some v` for success with result `v`. -/

/-- `GdbBreakpointCondition::evaluate` (gdb_server.rs:1088-1097):

```
for e in &self.expressions {
    let mut v: GdbExpressionValue = Default::default();
    // Break if evaluation fails or the result is nonzero
    if !e.evaluate(t, &mut v) || v.i != 0 {
        return true;
    }
}
false
```
-/
def gdb_breakpoint_condition_evaluate : List (Option Int) → Bool
  | [] => false
  | o :: rest =>
    match o with
    | none => true
    | some v => if v ≠ 0 then true else gdb_breakpoint_condition_evaluate rest

/-- One expression outcome "evaluates to a nonzero result or fails to
evaluate" (the wording of the spec sentence behind C2). -/
def nonzero_or_fail : Option Int → Bool
  | none => true
  | some v => decide (v ≠ 0)

/-- **C2 counterexample.** A watchpoint with two conditions, the first
evaluating to `0` and the second to `1`: the code fires (`evaluate` returns
`true`, because *some* expression is nonzero), but it is not the case that
*all* of its expressions evaluate to a nonzero result or fail — refuting
the claim's "fires iff all" for this non-empty condition list. -/
theorem gdb_breakpoint_condition_not_all :
    gdb_breakpoint_condition_evaluate [some 0, some 1] = true ∧
    ([some (0 : Int), some 1].all nonzero_or_fail) = false := by
  refine ⟨by decide, by decide⟩

/-- **C2 (amended).** For every watchpoint condition list, the watchpoint
fires iff *at least one* of its expressions evaluates to a nonzero result
or fails to evaluate (the code returns `true` at the first such expression;
it returns `false` only when every expression evaluates successfully to
zero). -/
theorem gdb_breakpoint_condition_evaluate_any :
    ∀ outcomes : List (Option Int),
      gdb_breakpoint_condition_evaluate outcomes = outcomes.any nonzero_or_fail := by
  intro outcomes
  induction outcomes with
  | nil => rfl
  | cons o rest ih =>
    cases o with
    | none => simp [gdb_breakpoint_condition_evaluate, nonzero_or_fail]
    | some v =>
      by_cases hv : v = 0
      · subst hv
        simpa [gdb_breakpoint_condition_evaluate, nonzero_or_fail] using ih
      · simp [gdb_breakpoint_condition_evaluate, nonzero_or_fail, hv]

/-! ## ParamSize and the scratch-size protocol (src/record_syscall.rs)

The task capabilities `ParamSize::eval` uses are a memory read
(`read_val_mem::<u32>` / `::<u64>` at `mem_ptr`) and the signed syscall
result register.  `memRead a n` is the value the typed read returns (the
typed reads return a `u32`/`u64`, rendered by the explicit `% 2 ^ 32` /
`% 2 ^ 64` at the use sites). -/

structure PTask where
  memRead : Nat → Nat → Nat
  syscall_result_signed : Int

/-- `struct ParamSize` (record_syscall.rs:938-948).  `mem_ptr` is a
`RemotePtr` with `0` as the null pointer. -/
structure ParamSize where
  incoming_size : Nat
  mem_ptr : Nat
  read_size : Nat
  from_syscall : Bool
deriving DecidableEq, Repr

/-- `impl From<usize> for ParamSize`: the incoming size is capped at
`i32::MAX` on construction. -/
def ParamSize.fromSize (siz : Nat) : ParamSize :=
  { incoming_size := min (2 ^ 31 - 1) siz,
    mem_ptr := 0, read_size := 0, from_syscall := false }

/-- `ParamSize::eval` (record_syscall.rs:1022-1064):

```
let mut s: usize = self.incoming_size;
if !self.mem_ptr.is_null() {
    let mem_size = read_val_mem::<u32 or u64 per read_size>(mem_ptr);
    ed_assert!(t, already_consumed <= mem_size);
    s = min(s, mem_size - already_consumed);
}
if self.from_syscall {
    let mut syscall_size = max(0isize, syscall_result_signed()) as usize;
    syscall_size = syscall_size as u32/u64 as usize;   // per read_size
    ed_assert!(t, already_consumed <= syscall_size);
    s = min(s, syscall_size - already_consumed);
}
s
```

`none` models a failed `ed_assert` (including the fatal "Unknown
read_size" arms). -/
def ParamSize.eval (ps : ParamSize) (t : PTask) (already_consumed : Nat) : Option Nat :=
  let s := ps.incoming_size
  let step1 : Option Nat :=
    if ps.mem_ptr ≠ 0 then
      match ps.read_size with
      | 4 =>
        let mem_size := t.memRead ps.mem_ptr 4 % 2 ^ 32
        if already_consumed ≤ mem_size then some (min s (mem_size - already_consumed))
        else none
      | 8 =>
        let mem_size := t.memRead ps.mem_ptr 8 % 2 ^ 64
        if already_consumed ≤ mem_size then some (min s (mem_size - already_consumed))
        else none
      | _ => none
    else some s
  match step1 with
  | none => none
  | some s1 =>
    if ps.from_syscall then
      let base := (max 0 t.syscall_result_signed).toNat
      match ps.read_size with
      | 4 =>
        let syscall_size := base % 2 ^ 32
        if already_consumed ≤ syscall_size then
          some (min s1 (syscall_size - already_consumed))
        else none
      | 8 =>
        let syscall_size := base % 2 ^ 64
        if already_consumed ≤ syscall_size then
          some (min s1 (syscall_size - already_consumed))
        else none
      | _ => none
    else some s1

/-- `ParamSize::is_same_source` (record_syscall.rs:1072-1076). -/
def ParamSize.is_same_source (self other : ParamSize) : Bool :=
  ((decide (self.mem_ptr ≠ 0) && (other.mem_ptr == self.mem_ptr)) ||
      (self.from_syscall && other.from_syscall)) &&
    (self.read_size == other.read_size)

/-- The value of the memory-sourced size cell as `eval` reads it. -/
def ParamSize.dynamic_mem_size (ps : ParamSize) (t : PTask) : Nat :=
  t.memRead ps.mem_ptr ps.read_size % 2 ^ (8 * ps.read_size)

/-- The value of the syscall-result size as `eval` reads it. -/
def ParamSize.dynamic_syscall_size (ps : ParamSize) (t : PTask) : Nat :=
  (max 0 t.syscall_result_signed).toNat % 2 ^ (8 * ps.read_size)

/-- The `already_consumed` accumulation of
`TaskSyscallState::eval_param_size` (record_syscall.rs:639-645): the sum of
the actual sizes already assigned to earlier parameters whose `ParamSize`
has the same dynamic source. -/
def already_consumed_for (prev : List (ParamSize × Nat)) (cur : ParamSize) : Nat :=
  ((prev.filter (fun q => q.1.is_same_source cur)).map Prod.snd).sum

/-- The sequence of `eval_param_size` calls made by
`process_syscall_results` for `i = 0, 1, …`, threading the `actual_sizes`
vector: each parameter is evaluated with the consumption of the earlier
same-source parameters and its actual size appended. -/
def compute_actual_sizes_go (t : PTask) (prev : List (ParamSize × Nat)) :
    List ParamSize → Option (List (ParamSize × Nat))
  | [] => some prev
  | p :: rest =>
    match p.eval t (already_consumed_for prev p) with
    | none => none
    | some sz => compute_actual_sizes_go t (prev ++ [(p, sz)]) rest

/-- Default element for `List.getD` on `(ParamSize × Nat)` lists. -/
def psz0 : ParamSize × Nat :=
  ({ incoming_size := 0, mem_ptr := 0, read_size := 0, from_syscall := false }, 0)

theorem compute_actual_sizes_go_spec (t : PTask) :
    ∀ (params : List ParamSize) (prev res : List (ParamSize × Nat)),
      compute_actual_sizes_go t prev params = some res →
      ∃ post, res = prev ++ post ∧ post.map Prod.fst = params ∧
        ∀ i, i < post.length →
          ((post.getD i psz0).1).eval t
              (already_consumed_for (prev ++ post.take i) (post.getD i psz0).1) =
            some (post.getD i psz0).2 := by
  intro params
  induction params with
  | nil =>
    intro prev res h
    simp only [compute_actual_sizes_go] at h
    cases h
    exact ⟨[], by simp, rfl, fun i hi => absurd hi (by simp)⟩
  | cons p rest ih =>
    intro prev res h
    simp only [compute_actual_sizes_go] at h
    cases heval : p.eval t (already_consumed_for prev p) with
    | none => simp only [heval] at h; cases h
    | some sz =>
      simp only [heval] at h
      obtain ⟨post', hres, hmap, hspec⟩ := ih (prev ++ [(p, sz)]) res h
      refine ⟨(p, sz) :: post', by simpa [List.append_assoc] using hres,
        by simpa using hmap, ?_⟩
      intro i hi
      cases i with
      | zero => simpa using heval
      | succ j =>
        have hj := hspec j (by simpa using hi)
        simpa [List.append_assoc] using hj

/-- **C3 counterexample.** Two refutations of the claimed formula
`eval(t, ac) = max(min(incoming, mem, sys) − ac, 0)`:
with only a fixed incoming size `5` and `already_consumed = 3`, `eval`
returns `5`, not `max(5 − 3, 0) = 2` (`already_consumed` is ignored when no
dynamic source is present); and with incoming size `5`, a memory-sourced
cell holding `10` and `already_consumed = 3`, `eval` returns
`min(5, 10 − 3) = 5`, not `max(min(5, 10) − 3, 0) = 2` (the subtraction
applies to the dynamic source inside the min, not to the overall min). -/
theorem param_size_eval_not_min_sub_consumed :
    (ParamSize.eval
        { incoming_size := 5, mem_ptr := 0, read_size := 0, from_syscall := false }
        { memRead := fun _ _ => 0, syscall_result_signed := 0 } 3 = some 5 ∧
      (5 : Nat) ≠ max (5 - 3) 0) ∧
    (ParamSize.eval
        { incoming_size := 5, mem_ptr := 0x1000, read_size := 4, from_syscall := false }
        { memRead := fun _ _ => 10, syscall_result_signed := 0 } 3 = some 5 ∧
      (5 : Nat) ≠ max (min 5 10 - 3) 0) := by
  refine ⟨⟨by decide, by decide⟩, ⟨by decide, by decide⟩⟩

/-- **C3 (amended).** `ParamSize::eval(t, already_consumed)` returns
`min(incoming, mem − already_consumed, sys − already_consumed)` where the
subtraction applies to each *dynamic* component (the memory-sourced cell
and the syscall result) individually, absent components are omitted from
the min, and `already_consumed` is ignored when no dynamic component is
present (`eval` aborts if `already_consumed` exceeds a present dynamic
component); and `eval_param_size` distributes a shared dynamic source among
the registered parameters in registration order, each later parameter's
`already_consumed` being the sum of the actual sizes assigned to earlier
same-source parameters. -/
theorem param_size_eval_and_distribution :
    (∀ (ps : ParamSize) (t : PTask) (ac : Nat),
      (ps.read_size = 4 ∨ ps.read_size = 8) →
      (ps.mem_ptr ≠ 0 → ac ≤ ps.dynamic_mem_size t) →
      (ps.from_syscall = true → ac ≤ ps.dynamic_syscall_size t) →
      ps.eval t ac =
        some (min
          (min ps.incoming_size
            (if ps.mem_ptr ≠ 0 then ps.dynamic_mem_size t - ac
             else ps.incoming_size))
          (if ps.from_syscall = true then ps.dynamic_syscall_size t - ac
           else ps.incoming_size))) ∧
    (∀ (t : PTask) (params : List ParamSize) (res : List (ParamSize × Nat)),
      compute_actual_sizes_go t [] params = some res →
      res.map Prod.fst = params ∧
      ∀ i, i < res.length →
        ((res.getD i psz0).1).eval t
            (already_consumed_for (res.take i) (res.getD i psz0).1) =
          some (res.getD i psz0).2) := by
  constructor
  · intro ps t ac hrs hm hs
    obtain ⟨inc, mp, rs, fs⟩ := ps
    rcases hrs with h | h <;> subst h <;>
      by_cases hmp : mp ≠ 0 <;>
      cases fs <;>
      simp_all [ParamSize.eval, ParamSize.dynamic_mem_size,
        ParamSize.dynamic_syscall_size]
  · intro t params res h
    obtain ⟨post, hres, hmap, hspec⟩ := compute_actual_sizes_go_spec t params [] res h
    simp only [List.nil_append] at hres
    subst hres
    exact ⟨hmap, by simpa using hspec⟩

/-- Closed witness for the amended C3: two parameters drawing from the same
syscall-result source (result `7`, incoming sizes `4` and `10`): the first
gets `min(4, 7) = 4`, the second `min(10, 7 − 4) = 3`, and the `eval`
formula holds at each step. -/
theorem param_size_eval_and_distribution_witness :
    ParamSize.eval
        { incoming_size := 10, mem_ptr := 0, read_size := 8, from_syscall := true }
        { memRead := fun _ _ => 0, syscall_result_signed := 7 } 4 = some 3 ∧
    compute_actual_sizes_go
        { memRead := fun _ _ => 0, syscall_result_signed := 7 } []
        [{ incoming_size := 4, mem_ptr := 0, read_size := 8, from_syscall := true },
         { incoming_size := 10, mem_ptr := 0, read_size := 8, from_syscall := true }] =
      some [({ incoming_size := 4, mem_ptr := 0, read_size := 8, from_syscall := true }, 4),
            ({ incoming_size := 10, mem_ptr := 0, read_size := 8, from_syscall := true }, 3)] ∧
    ParamSize.eval
        ({ incoming_size := 10, mem_ptr := 0, read_size := 8, from_syscall := true })
        { memRead := fun _ _ => 0, syscall_result_signed := 7 }
        (already_consumed_for
          [({ incoming_size := 4, mem_ptr := 0, read_size := 8, from_syscall := true }, 4)]
          { incoming_size := 10, mem_ptr := 0, read_size := 8, from_syscall := true }) =
      some 3 := by
  have hcomp : compute_actual_sizes_go
      { memRead := fun _ _ => 0, syscall_result_signed := 7 } []
      [{ incoming_size := 4, mem_ptr := 0, read_size := 8, from_syscall := true },
       { incoming_size := 10, mem_ptr := 0, read_size := 8, from_syscall := true }] =
    some [({ incoming_size := 4, mem_ptr := 0, read_size := 8, from_syscall := true }, 4),
          ({ incoming_size := 10, mem_ptr := 0, read_size := 8, from_syscall := true }, 3)] := by
    decide
  have heval := param_size_eval_and_distribution.1
    { incoming_size := 10, mem_ptr := 0, read_size := 8, from_syscall := true }
    { memRead := fun _ _ => 0, syscall_result_signed := 7 } 4
    (Or.inr rfl) (by intro hc; exact absurd rfl hc) (by intro _; decide)
  have hdist := (param_size_eval_and_distribution.2
    { memRead := fun _ _ => 0, syscall_result_signed := 7 }
    [{ incoming_size := 4, mem_ptr := 0, read_size := 8, from_syscall := true },
     { incoming_size := 10, mem_ptr := 0, read_size := 8, from_syscall := true }]
    [({ incoming_size := 4, mem_ptr := 0, read_size := 8, from_syscall := true }, 4),
     ({ incoming_size := 10, mem_ptr := 0, read_size := 8, from_syscall := true }, 3)]
    hcomp).2 1 (by decide)
  refine ⟨?_, hcomp, ?_⟩
  · rw [heval]; decide
  · simpa using hdist

/-! ## GdbServer (src/commands/gdb_server.rs)

The server's fields that the claims touch, with the `ReplayTimeline`
abstracted to the interface the spec gives it (a current mark, a set of
breakpoints/watchpoints, explicit checkpoint pins, and a per-state
`can_add_checkpoint` answer).  `TaskUid`/`ThreadGroupUid` and marks are
opaque `Nat` identifiers. -/

inductive SupportedArch | X86 | X64
deriving DecidableEq, Repr

/-- `util::word_size`: pointer width of the guest architecture. -/
def word_size : SupportedArch → Nat
  | .X86 => 4
  | .X64 => 8

inductive RunDirection | RunForward | RunBackward
deriving DecidableEq, Repr

def SIGTRAP : Int := 5

def SIGKILL : Int := 9

/-- The task capabilities the GdbServer paths under scrutiny read:
`tuid`, `tgid`, `rec_tid`, the owning thread group (`tguid`) and that
thread group's task-set size. -/
structure TaskM where
  tuid : Nat
  tgid : Nat
  rec_tid : Nat
  tguid : Nat
  tgroup_size : Nat
deriving DecidableEq, Repr

/-- `BreakStatus` as `maybe_notify_stop` consumes it: the watchpoint-hit
addresses, the breakpoint/singlestep/task-exit flags, an optional delivered
signal (modelled by its `si_signo`), and the stopped task. -/
structure BreakStatus where
  watchpoints_hit : List Nat
  breakpoint_hit : Bool
  singlestep_complete : Bool
  signal : Option Int
  task_exit : Bool
  task : TaskM
deriving DecidableEq, Repr

/-- `is_last_thread_exit` (gdb_server.rs:1060-1071): a task exit where the
task's thread group has exactly one task left. -/
def is_last_thread_exit (break_status : BreakStatus) : Bool :=
  break_status.task_exit && (break_status.task.tgroup_size == 1)

/-- The `ReplayTimeline` interface of §4.1 of the spec, as the GdbServer
uses it: a current position (mark), whether any breakpoints/watchpoints are
registered, the multiset of explicit checkpoint pins, and which states can
take a checkpoint. -/
structure Timeline where
  pos : Nat
  has_breakpoints : Bool
  pins : List Nat
  can_add : Nat → Bool

def Timeline.remove_breakpoints_and_watchpoints (tl : Timeline) : Timeline :=
  { tl with has_breakpoints := false }

def Timeline.mark (tl : Timeline) : Nat := tl.pos

def Timeline.add_explicit_checkpoint (tl : Timeline) : Nat × Timeline :=
  (tl.pos, { tl with pins := tl.pos :: tl.pins })

def Timeline.remove_explicit_checkpoint (tl : Timeline) (m : Nat) : Timeline :=
  { tl with pins := tl.pins.erase m }

def Timeline.seek_to_mark (tl : Timeline) (m : Nat) : Timeline :=
  { tl with pos := m }

def Timeline.can_add_checkpoint (tl : Timeline) : Bool := tl.can_add tl.pos

inductive ExplicitCheckpoint | Explicit | NotExplicit
deriving DecidableEq, Repr

/-- `Checkpoint` (gdb_server.rs:118-124). -/
structure Checkpoint where
  mark : Nat
  last_continue_tuid : Nat
  is_explicit : ExplicitCheckpoint
  where_ : String
deriving DecidableEq, Repr

/-- `Checkpoint::new` (gdb_server.rs:126-145): an `Explicit` checkpoint pins
the current state via `add_explicit_checkpoint`, a non-explicit one just
takes `mark()`.  Returns the checkpoint and the updated timeline. -/
def Checkpoint.new (timeline : Timeline) (last_continue_tuid : Nat)
    (e : ExplicitCheckpoint) (where_ : String) : Checkpoint × Timeline :=
  let mt :=
    if e = ExplicitCheckpoint.Explicit then timeline.add_explicit_checkpoint
    else (timeline.mark, timeline)
  ({ mark := mt.1, last_continue_tuid := last_continue_tuid,
     is_explicit := e, where_ := where_ }, mt.2)

/-- The `GdbServer` fields the claims touch (gdb_server.rs:147-188).
`checkpoints: HashMap<u64, Checkpoint>` is an association list. -/
structure GdbServerState where
  target_pid : Option Nat
  target_require_exec : Bool
  target_event : Nat
  debuggee_tguid : Nat
  last_continue_tuid : Nat
  last_query_tuid : Nat
  final_event : Nat
  stop_signo : Int
  in_debuggee_end_state : Bool
  stop_replaying_to_target : Bool
  interrupt_pending : Bool
  timeline : Timeline
  debugger_restart_checkpoint : Option Checkpoint
  checkpoints : List (Nat × Checkpoint)

/-- `checkpoints.get(&id)` on the association-list model. -/
def ckGet (m : List (Nat × Checkpoint)) (id : Nat) : Option Checkpoint :=
  (m.find? (fun p => p.1 == id)).map (fun p => p.2)

/-- `GdbServer::restart_session` (gdb_server.rs:617-706) for a
`DREQ_RESTART` of kind `RestartFromCheckpoint` with parameter `param`.
Returns `none` on the `unwrap` panic (taking the explicit-checkpoint branch
with no `debugger_restart_checkpoint` stored), otherwise the new state,
whether `notify_restart_failed` was sent, and the checkpoint ids printed.

```
self.in_debuggee_end_state = false;
self.timeline.remove_breakpoints_and_watchpoints();
if req.restart().type_ == RestartFromCheckpoint {
    match self.checkpoints.get(&req.restart().param) {
        None => { print valid ids; self.dbg.notify_restart_failed(); return; }
        Some(c) => checkpoint_to_restore = Some(c),
    }
}
self.interrupt_pending = true;
if let Some(checkpoint) = checkpoint_to_restore {
    self.timeline.seek_to_mark(&checkpoint.mark);
    self.last_query_tuid = self.last_continue_tuid = checkpoint.last_continue_tuid;
    if self.debugger_restart_checkpoint.unwrap().is_explicit == Explicit {
        self.timeline.remove_explicit_checkpoint(...);
    }
    self.debugger_restart_checkpoint = Some(checkpoint);
    if self.timeline.can_add_checkpoint() { self.timeline.add_explicit_checkpoint(); }
    return;
}
```
-/
def restart_session_from_checkpoint (s : GdbServerState) (param : Nat) :
    Option (GdbServerState × Bool × List Nat) :=
  let s1 : GdbServerState :=
    { s with in_debuggee_end_state := false,
             timeline := s.timeline.remove_breakpoints_and_watchpoints }
  match ckGet s1.checkpoints param with
  | none => some (s1, true, s1.checkpoints.map Prod.fst)
  | some c =>
    let s2 : GdbServerState := { s1 with interrupt_pending := true }
    let s3 : GdbServerState :=
      { s2 with timeline := s2.timeline.seek_to_mark c.mark,
                last_query_tuid := c.last_continue_tuid,
                last_continue_tuid := c.last_continue_tuid }
    match s3.debugger_restart_checkpoint with
    | none => none
    | some drc =>
      let s4 : GdbServerState :=
        if drc.is_explicit = ExplicitCheckpoint.Explicit then
          { s3 with timeline := s3.timeline.remove_explicit_checkpoint drc.mark }
        else s3
      let s5 : GdbServerState := { s4 with debugger_restart_checkpoint := some c }
      let s6 : GdbServerState :=
        if s5.timeline.can_add_checkpoint then
          { s5 with timeline := s5.timeline.add_explicit_checkpoint.2 }
        else s5
      some (s6, false, [])

/-- `get_threadid` (gdb_server.rs:1056-1058). -/
def get_threadid (t : TaskM) : Nat × Nat := (t.tgid, t.rec_tid)

/-- Result of `maybe_notify_stop`: the updated server state, the
notification sent to the client (`(pid, tid, signo, watch_addr)` for
`notify_stop`), together with the internal `do_stop` decision and the task
the stop was attributed to. -/
structure StopOutcome where
  state : GdbServerState
  notification : Option (Nat × Nat × Int × Nat)
  do_stop : Bool
  t_final : TaskM

/-- `GdbServer::maybe_notify_stop` (gdb_server.rs:764-826), with the
connection's `features().reverse_execution` and the result of
`is_in_exec(&timeline)` passed as inputs:

```
let mut do_stop = false; let mut watch_addr = null;
if !break_status.watchpoints_hit.is_empty() { do_stop = true; siginfo = SIGTRAP; watch_addr = hit[0].addr; }
if break_status.breakpoint_hit || break_status.singlestep_complete { do_stop = true; siginfo = SIGTRAP; }
if break_status.signal.is_some() { do_stop = true; siginfo = *signal; }
if is_last_thread_exit(break_status) && features().reverse_execution {
    do_stop = true;
    siginfo = if run_direction == RunForward { SIGKILL } else { 0 };
}
let mut t = break_status.task;
if let Some(in_exec_task) = is_in_exec(timeline) { do_stop = true; siginfo = 0; t = in_exec_task; }
if do_stop && t.tguid == self.debuggee_tguid {
    notify_stop(get_threadid(t), signo, watch_addr);
    self.last_continue_tuid = self.last_query_tuid = t.tuid();
}
```
-/
def stop_decision (s : GdbServerState) (run_direction : RunDirection)
    (reverse_execution : Bool) (break_status : BreakStatus) : Bool × Int × Nat :=
  let st0 : Bool × Int × Nat := (false, s.stop_signo, 0)
  let st1 : Bool × Int × Nat :=
    if break_status.watchpoints_hit ≠ [] then
      (true, SIGTRAP, break_status.watchpoints_hit.headD 0)
    else st0
  let st2 : Bool × Int × Nat :=
    if break_status.breakpoint_hit || break_status.singlestep_complete then
      (true, SIGTRAP, st1.2.2)
    else st1
  let st3 : Bool × Int × Nat :=
    match break_status.signal with
    | some si => (true, si, st2.2.2)
    | none => st2
  if is_last_thread_exit break_status && reverse_execution then
    (true, if run_direction = RunDirection.RunForward then SIGKILL else 0, st3.2.2)
  else st3

def maybe_notify_stop (s : GdbServerState) (run_direction : RunDirection)
    (reverse_execution : Bool) (maybe_in_exec : Option TaskM)
    (break_status : BreakStatus) : StopOutcome :=
  let st4 : Bool × Int × Nat := stop_decision s run_direction reverse_execution break_status
  let tt : TaskM × Bool × Int :=
    match maybe_in_exec with
    | some in_exec_task => (in_exec_task, true, 0)
    | none => (break_status.task, st4.1, st4.2.1)
  let watch_addr := st4.2.2
  let s1 : GdbServerState := { s with stop_signo := tt.2.2 }
  if tt.2.1 && (tt.1.tguid == s.debuggee_tguid) then
    { state := { s1 with last_continue_tuid := tt.1.tuid, last_query_tuid := tt.1.tuid },
      notification := some (get_threadid tt.1 |>.1, get_threadid tt.1 |>.2, tt.2.2, watch_addr),
      do_stop := tt.2.1, t_final := tt.1 }
  else
    { state := s1, notification := none, do_stop := tt.2.1, t_final := tt.1 }

/-- `GdbServer::activate_debugger` (gdb_server.rs:545-615), with the current
task and the current trace frame's time passed as inputs (the banner
printing has no state effect and is omitted):

```
self.target.pid = Some(t.tgid());
self.target.require_exec = false;
self.target.event = event_now;
self.last_query_tuid = self.last_continue_tuid = t.tuid();
let can_add = self.timeline.can_add_checkpoint();
let checkpoint = Checkpoint::new(&mut timeline, self.last_continue_tuid,
                                 if can_add { Explicit } else { NotExplicit }, "???");
self.debugger_restart_checkpoint = Some(checkpoint);
```
-/
def activate_debugger (s : GdbServerState) (t : TaskM) (event_now : Nat) :
    GdbServerState :=
  let s1 : GdbServerState :=
    { s with target_pid := some t.tgid, target_require_exec := false,
             target_event := event_now,
             last_query_tuid := t.tuid, last_continue_tuid := t.tuid }
  let can_add := s1.timeline.can_add_checkpoint
  let ct := Checkpoint.new s1.timeline s1.last_continue_tuid
    (if can_add then ExplicitCheckpoint.Explicit else ExplicitCheckpoint.NotExplicit)
    "???"
  { s1 with timeline := ct.2, debugger_restart_checkpoint := some ct.1 }

/-- **C5.** A `DREQ_RESTART` of kind `RestartFromCheckpoint` whose id has no
entry in `GdbServer::checkpoints` prints the valid checkpoint ids, replies
with `notify_restart_failed`, and changes no state: the timeline is not
repositioned (nor are its pins touched) and the checkpoint table,
`debugger_restart_checkpoint`, `last_continue_tuid`, `last_query_tuid` and
`interrupt_pending` are all left as they were. -/
theorem restart_session_unknown_checkpoint_id
    (s : GdbServerState) (param : Nat)
    (h : ckGet s.checkpoints param = none) :
    ∃ s', restart_session_from_checkpoint s param =
        some (s', true, s.checkpoints.map Prod.fst) ∧
      s'.checkpoints = s.checkpoints ∧
      s'.debugger_restart_checkpoint = s.debugger_restart_checkpoint ∧
      s'.last_continue_tuid = s.last_continue_tuid ∧
      s'.last_query_tuid = s.last_query_tuid ∧
      s'.interrupt_pending = s.interrupt_pending ∧
      s'.timeline.pos = s.timeline.pos ∧
      s'.timeline.pins = s.timeline.pins ∧
      s'.target_pid = s.target_pid ∧
      s'.target_event = s.target_event := by
  refine ⟨{ s with
            in_debuggee_end_state := false,
            timeline := s.timeline.remove_breakpoints_and_watchpoints },
    ?_, rfl, rfl, rfl, rfl, rfl, rfl, rfl, rfl, rfl⟩
  have h' : ckGet ({ s with
      in_debuggee_end_state := false,
      timeline := s.timeline.remove_breakpoints_and_watchpoints } :
        GdbServerState).checkpoints param = none := h
  simp only [restart_session_from_checkpoint, h']

/-- Concrete server state used by the closed witnesses. -/
def sampleTimeline : Timeline :=
  { pos := 7, has_breakpoints := true, pins := [3], can_add := fun _ => true }

/-- Concrete server state used by the closed witnesses: one checkpoint
stored under id `1`, positioned at mark `7`. -/
def sampleServer : GdbServerState :=
  { target_pid := none, target_require_exec := true, target_event := 0,
    debuggee_tguid := 11, last_continue_tuid := 1, last_query_tuid := 2,
    final_event := 100, stop_signo := 0, in_debuggee_end_state := true,
    stop_replaying_to_target := false, interrupt_pending := false,
    timeline := sampleTimeline,
    debugger_restart_checkpoint := none,
    checkpoints := [(1, { mark := 3, last_continue_tuid := 1,
                          is_explicit := ExplicitCheckpoint.Explicit,
                          where_ := "event 3" })] }

/-- Closed witness for C5: restarting `sampleServer` with the unknown
checkpoint id `42`. -/
theorem restart_session_unknown_checkpoint_id_witness :
    ∃ s', restart_session_from_checkpoint sampleServer 42 =
        some (s', true, sampleServer.checkpoints.map Prod.fst) ∧
      s'.checkpoints = sampleServer.checkpoints ∧
      s'.debugger_restart_checkpoint = sampleServer.debugger_restart_checkpoint ∧
      s'.last_continue_tuid = sampleServer.last_continue_tuid ∧
      s'.last_query_tuid = sampleServer.last_query_tuid ∧
      s'.interrupt_pending = sampleServer.interrupt_pending ∧
      s'.timeline.pos = sampleServer.timeline.pos ∧
      s'.timeline.pins = sampleServer.timeline.pins ∧
      s'.target_pid = sampleServer.target_pid ∧
      s'.target_event = sampleServer.target_event :=
  restart_session_unknown_checkpoint_id sampleServer 42 rfl

/-- **C6.** After a resume-style step whose break status reports the exit of
the last remaining thread of its thread group, when the connection
advertises reverse execution (and the timeline is not at an exec boundary),
`maybe_notify_stop` records a synthetic `SIGKILL` as the stop signal if the
resume request ran forward and a silent stop (signal `0`) if it ran
backward; and for any stop (`do_stop` set, any break status),
`notify_stop(threadid, signo, watch_addr)` is sent — and
`last_continue_tuid`/`last_query_tuid` updated to the stopped task — iff
the stopped task's thread group equals `debuggee_tguid`. -/
theorem maybe_notify_stop_last_thread_exit
    (s : GdbServerState) (dir : RunDirection) (bs : BreakStatus)
    (hexit : is_last_thread_exit bs = true) :
    ((maybe_notify_stop s dir true none bs).state.stop_signo =
        if dir = RunDirection.RunForward then SIGKILL else 0) ∧
    (∀ (reverse_execution : Bool) (maybe_in_exec : Option TaskM)
        (bs' : BreakStatus),
      (maybe_notify_stop s dir reverse_execution maybe_in_exec bs').do_stop = true →
      (((maybe_notify_stop s dir reverse_execution maybe_in_exec bs').notification.isSome ∧
        (maybe_notify_stop s dir reverse_execution maybe_in_exec bs').state.last_continue_tuid =
          (maybe_notify_stop s dir reverse_execution maybe_in_exec bs').t_final.tuid ∧
        (maybe_notify_stop s dir reverse_execution maybe_in_exec bs').state.last_query_tuid =
          (maybe_notify_stop s dir reverse_execution maybe_in_exec bs').t_final.tuid) ↔
        (maybe_notify_stop s dir reverse_execution maybe_in_exec bs').t_final.tguid =
          s.debuggee_tguid)) := by
  constructor
  · have hsig : (stop_decision s dir true bs).2.1 =
        if dir = RunDirection.RunForward then SIGKILL else 0 := by
      simp [stop_decision, hexit]
    unfold maybe_notify_stop
    simp only
    split
    · simpa using hsig
    · simpa using hsig
  · intro reverse_execution maybe_in_exec bs' hstop
    unfold maybe_notify_stop at hstop ⊢
    cases maybe_in_exec with
    | some te =>
      simp only at hstop ⊢
      by_cases hg : te.tguid = s.debuggee_tguid
      · simp [hg]
      · have hgb : (te.tguid == s.debuggee_tguid) = false := by simpa using hg
        simp [hg, hgb]
    | none =>
      simp only at hstop ⊢
      generalize hst : stop_decision s dir reverse_execution bs' = st at hstop ⊢
      obtain ⟨d, sg, w⟩ := st
      cases d with
      | false => simp at hstop
      | true =>
        by_cases hg : bs'.task.tguid = s.debuggee_tguid
        · simp [hg]
        · have hgb : (bs'.task.tguid == s.debuggee_tguid) = false := by simpa using hg
          simp [hg, hgb]

/-- Closed witness for C6: a forward continue whose last step exits the last
thread of the debuggee thread group records `SIGKILL`, and this stop is
notified because the task belongs to `debuggee_tguid = 11`. -/
theorem maybe_notify_stop_last_thread_exit_witness :
    is_last_thread_exit
      { watchpoints_hit := [], breakpoint_hit := false, singlestep_complete := false,
        signal := none, task_exit := true,
        task := { tuid := 1, tgid := 11, rec_tid := 12, tguid := 11, tgroup_size := 1 } } = true ∧
    (maybe_notify_stop sampleServer RunDirection.RunForward true none
      { watchpoints_hit := [], breakpoint_hit := false, singlestep_complete := false,
        signal := none, task_exit := true,
        task := { tuid := 1, tgid := 11, rec_tid := 12, tguid := 11, tgroup_size := 1 } }).state.stop_signo =
      SIGKILL :=
  ⟨rfl,
    by
      have h := (maybe_notify_stop_last_thread_exit sampleServer RunDirection.RunForward
        { watchpoints_hit := [], breakpoint_hit := false, singlestep_complete := false,
          signal := none, task_exit := true,
          task := { tuid := 1, tgid := 11, rec_tid := 12, tguid := 11, tgroup_size := 1 } }
        rfl).1
      simpa using h⟩

/-- **C10.** `activate_debugger` rebinds the server's target to the attach
point: `target.pid` becomes `Some` of the current task's thread-group id,
`target.require_exec` becomes false, `target.event` becomes the current
trace frame's time, `last_continue_tuid` and `last_query_tuid` are set to
the current task, and `debugger_restart_checkpoint` is set to a checkpoint
at the current state — explicit exactly when the timeline can add a
checkpoint here, non-explicit otherwise. -/
theorem activate_debugger_rebinds_target
    (s : GdbServerState) (t : TaskM) (event_now : Nat) :
    (activate_debugger s t event_now).target_pid = some t.tgid ∧
    (activate_debugger s t event_now).target_require_exec = false ∧
    (activate_debugger s t event_now).target_event = event_now ∧
    (activate_debugger s t event_now).last_continue_tuid = t.tuid ∧
    (activate_debugger s t event_now).last_query_tuid = t.tuid ∧
    ∃ ck, (activate_debugger s t event_now).debugger_restart_checkpoint = some ck ∧
      ck.mark = s.timeline.pos ∧
      ck.last_continue_tuid = t.tuid ∧
      (ck.is_explicit = ExplicitCheckpoint.Explicit ↔
        s.timeline.can_add_checkpoint = true) := by
  by_cases hca : s.timeline.can_add_checkpoint
  · refine ⟨rfl, rfl, rfl, rfl, rfl, ?_⟩
    simp [activate_debugger, Checkpoint.new, Timeline.add_explicit_checkpoint,
      Timeline.mark, hca]
  · refine ⟨rfl, rfl, rfl, rfl, rfl, ?_⟩
    simp only [activate_debugger, Checkpoint.new, Timeline.add_explicit_checkpoint,
      Timeline.mark, hca, Bool.false_eq_true, if_false]
    refine ⟨_, rfl, rfl, rfl, ?_⟩
    simp [hca]

/-! ## Register-list requests (C7)

Modelled from the spec: the register numbers live in the external
`gdb_register` module (`DREG_*`); the numbering below follows the
DebuggerRegister layout for x86 (`ORIG_EAX` then the `YMMxH` block) and
x86-64 (`ORIG_RAX` then the `YMM` high halves).  Only the names and their
relative order matter to the claim. -/

def DREG_ORIG_EAX : Nat := 41

def DREG_YMM7H : Nat := 49

def DREG_ORIG_RAX : Nat := 57

def DREG_64_YMM15H : Nat := 75

/-- The `while r <= end { rs.push(get_reg(regs, extra_regs, r)); r += 1 }`
loop of `dispatch_regs_request` (gdb_server.rs:467-472); `regfile r` stands
for the `get_reg` value of register `r`. -/
def dispatch_regs_loop (regfile : Nat → Nat) (r bound : Nat) : List (Nat × Nat) :=
  if h : r ≤ bound then (r, regfile r) :: dispatch_regs_loop regfile (r + 1) bound
  else []
termination_by bound + 1 - r

/-- `GdbServer::dispatch_regs_request` (gdb_server.rs:447-474): the reply
covers register numbers `0` through an architecture- and AVX-dependent
bound:

```
let have_avx = (cpu_features() & CPU_AVX) != 0;
let end = match regs.arch() {
    X86 => if have_avx { DREG_YMM7H } else { DREG_ORIG_EAX },
    X64 => if have_avx { DREG_64_YMM15H } else { DREG_ORIG_RAX },
};
let mut r = 0; while r <= end { rs.push(get_reg(..., r)); r += 1; }
reply_get_regs(&rs);
```
-/
def dispatch_regs_request (arch : SupportedArch) (have_avx : Bool)
    (regfile : Nat → Nat) : List (Nat × Nat) :=
  let bound :=
    match arch with
    | SupportedArch.X86 => if have_avx then DREG_YMM7H else DREG_ORIG_EAX
    | SupportedArch.X64 => if have_avx then DREG_64_YMM15H else DREG_ORIG_RAX
  dispatch_regs_loop regfile 0 bound

theorem mem_dispatch_regs_loop (regfile : Nat → Nat) (r bound n : Nat) :
    n ∈ (dispatch_regs_loop regfile r bound).map Prod.fst ↔ (r ≤ n ∧ n ≤ bound) := by
  by_cases h : r ≤ bound
  · rw [dispatch_regs_loop, dif_pos h]
    simp only [List.map_cons, List.mem_cons]
    rw [mem_dispatch_regs_loop regfile (r + 1) bound n]
    constructor
    · rintro (rfl | ⟨h1, h2⟩)
      · exact ⟨Nat.le_refl _, h⟩
      · exact ⟨by omega, h2⟩
    · rintro ⟨h1, h2⟩
      rcases Nat.eq_or_lt_of_le h1 with heq | hlt
      · exact Or.inl heq.symm
      · exact Or.inr ⟨hlt, h2⟩
  · rw [dispatch_regs_loop, dif_neg h]
    simp
    omega
termination_by bound + 1 - r

/-- **C7.** For every `DREQ_GET_REGS` request, the reply contains values for
exactly the registers from number `0` through an architecture- and
feature-determined bound: through `DREG_ORIG_EAX` (x86) or `DREG_ORIG_RAX`
(x86-64) when the connection's advertised CPU features lack AVX, and
through `DREG_YMM7H` (x86) or `DREG_64_YMM15H` (x86-64) when AVX is
advertised. -/
theorem dispatch_regs_request_range
    (arch : SupportedArch) (have_avx : Bool) (regfile : Nat → Nat) (n : Nat) :
    n ∈ (dispatch_regs_request arch have_avx regfile).map Prod.fst ↔
      n ≤ (match arch with
           | SupportedArch.X86 => if have_avx then DREG_YMM7H else DREG_ORIG_EAX
           | SupportedArch.X64 => if have_avx then DREG_64_YMM15H else DREG_ORIG_RAX) := by
  unfold dispatch_regs_request
  rw [mem_dispatch_regs_loop]
  simp

/-! ## Memory-read interception (C8) -/

/-- The one bit of `MappingFlags` the claim needs. -/
structure MappingFlags where
  is_patch_stubs : Bool
deriving DecidableEq, Repr

/-- The task capabilities `maybe_intercept_mem_request` reads: the stack
pointer, instruction pointer, architecture, and the address space's
mapping-flags lookup (`none` at unmapped addresses). -/
structure GTask where
  sp : Nat
  ip : Nat
  arch : SupportedArch
  vm : Nat → Option MappingFlags

/-- `is_in_patch_stubs` (gdb_server.rs:987-993): the address is mapped and
its mapping carries `IS_PATCH_STUBS`. -/
def is_in_patch_stubs (vm : Nat → Option MappingFlags) (ip : Nat) : Bool :=
  (vm ip).isSome &&
    (match vm ip with
     | some fl => fl.is_patch_stubs
     | none => false)

/-- `result[offset..offset + size].fill(0)`, written as an index-conditional
pass over the byte list (`i` is the index of the head of `l`). -/
def fill_from (i offset size : Nat) : List Nat → List Nat
  | [] => []
  | b :: rest =>
    (if offset ≤ i ∧ i < offset + size then 0 else b) :: fill_from (i + 1) offset size rest

/-- `GdbServer::maybe_intercept_mem_request` (gdb_server.rs:476-492):

```
let size = word_size(target.arch());
if target.sp() >= req.mem().addr
    && target.sp() + size <= req.mem().addr + req.mem().len
    && is_in_patch_stubs(target, target.ip()) {
    let offset = target.sp() - req.mem().addr;
    result[offset..offset + size].fill(0);
}
```
-/
def maybe_intercept_mem_request (target : GTask) (addr len : Nat)
    (result : List Nat) : List Nat :=
  let size := word_size target.arch
  if addr ≤ target.sp ∧ target.sp + size ≤ addr + len ∧
      is_in_patch_stubs target.vm target.ip = true then
    fill_from 0 (target.sp - addr) size result
  else result

theorem fill_from_length :
    ∀ (l : List Nat) (i offset size : Nat), (fill_from i offset size l).length = l.length
  | [], _, _, _ => rfl
  | _ :: rest, i, offset, size => by
    simp [fill_from, fill_from_length rest (i + 1) offset size]

theorem fill_from_getD :
    ∀ (l : List Nat) (i offset size j : Nat), j < l.length →
      (fill_from i offset size l).getD j 0 =
        if offset ≤ i + j ∧ i + j < offset + size then 0 else l.getD j 0 := by
  intro l
  induction l with
  | nil => intro i offset size j hj; simp at hj
  | cons b rest ih =>
    intro i offset size j hj
    cases j with
    | zero => simp [fill_from]
    | succ j' =>
      have := ih (i + 1) offset size j' (by simpa using hj)
      simp only [fill_from, List.getD_cons_succ]
      rw [this]
      have harith : i + 1 + j' = i + (j' + 1) := by omega
      rw [harith]

/-- **C8.** For every `DREQ_GET_MEM` request whose range `[addr, addr+len)`
wholly contains the word-sized slot starting at the task's current stack
pointer, when the task is stopped inside the patch-stubs region, the reply
bytes covering that slot are zeroed while all other bytes are the memory
contents the address space maps (the `result` buffer that was read). -/
theorem maybe_intercept_mem_request_zeroes
    (t : GTask) (addr len : Nat) (result : List Nat)
    (hlen : result.length = len)
    (h1 : addr ≤ t.sp) (h2 : t.sp + word_size t.arch ≤ addr + len)
    (h3 : is_in_patch_stubs t.vm t.ip = true) :
    (maybe_intercept_mem_request t addr len result).length = len ∧
    ∀ j, j < len →
      (maybe_intercept_mem_request t addr len result).getD j 0 =
        if t.sp - addr ≤ j ∧ j < (t.sp - addr) + word_size t.arch then 0
        else result.getD j 0 := by
  unfold maybe_intercept_mem_request
  rw [if_pos ⟨h1, h2, h3⟩]
  constructor
  · rw [fill_from_length, hlen]
  · intro j hj
    rw [fill_from_getD result 0 (t.sp - addr) (word_size t.arch) j (by omega)]
    simp

/-- The concrete patch-stubs task of the spec's scenario 3:
`sp = 0x1000`, x86-64, `ip` inside an `IS_PATCH_STUBS` mapping. -/
def stubTask : GTask :=
  { sp := 0x1000, ip := 0x5000, arch := SupportedArch.X64,
    vm := fun _ => some { is_patch_stubs := true } }

/-- Closed witness for C8: `DREQ_GET_MEM { addr = 0xFF8, len = 16 }` on
`stubTask` over an all-ones buffer zeroes exactly bytes `[8..16)`. -/
theorem maybe_intercept_mem_request_zeroes_witness :
    (maybe_intercept_mem_request stubTask 0xFF8 16 (List.replicate 16 1)).getD 10 0 = 0 ∧
    (maybe_intercept_mem_request stubTask 0xFF8 16 (List.replicate 16 1)).getD 3 0 = 1 := by
  have h := maybe_intercept_mem_request_zeroes stubTask 0xFF8 16 (List.replicate 16 1)
    rfl (by decide) (by decide) rfl
  constructor
  · rw [h.2 10 (by decide)]; decide
  · rw [h.2 3 (by decide)]; decide

/-! ## Scratch allocation during syscall-entry preparation (C9) -/

/-- `ArgMode` (record_syscall.rs:1081-1094). -/
inductive ArgMode | In | Out | InOut | InOutNoScratch
deriving DecidableEq, Repr

/-- `align_scratch` (record_syscall.rs:1135-1138).  The source computes
`(scratch + amount - 1) & !(amount - 1)` on a `usize` with `amount` a power
of two, which on natural values is rounding up to the next multiple of
`amount` (the default amount is 8). -/
def align_scratch (scratch : Nat) (maybe_amount : Option Nat) : Nat :=
  let amount := maybe_amount.getD 8
  ((scratch + amount - 1) / amount) * amount

/-- What one parameter registration contributes to the scratch pointer:
its `ParamSize.incoming_size`, its `ArgMode`, and whether the destination
pointer was null (in which case `reg_parameter_with_size` /
`mem_ptr_parameter_with_size` return early without touching `scratch`). -/
structure RegEntry where
  size : Nat
  mode : ArgMode
  dest_null : Bool
deriving DecidableEq, Repr

/-- The scratch-pointer update performed by `reg_parameter_with_size`
(record_syscall.rs:449-483) and `mem_ptr_parameter_with_size`
(record_syscall.rs:544-579): when the destination is non-null and the mode
is not `InOutNoScratch`,

```
param.scratch = self.scratch;
self.scratch += param.num_bytes.incoming_size;
align_scratch(&mut self.scratch, None);
```
-/
def reg_step (scratch : Nat) (e : RegEntry) : Nat :=
  if e.dest_null then scratch
  else if e.mode = ArgMode.InOutNoScratch then scratch
  else align_scratch (scratch + e.size) none

/-- The scratch pointer after a sequence of registrations, starting from
`TaskSyscallState::init`'s `self.scratch = t.scratch_ptr`
(record_syscall.rs:415-423). -/
def scratch_after (scratch_ptr : Nat) (es : List RegEntry) : Nat :=
  es.foldl reg_step scratch_ptr

/-- The scratch slots `[param.scratch, param.scratch + incoming_size)`
assigned to the scratch-using registrations, in registration order. -/
def scratch_slots (scratch_ptr : Nat) : List RegEntry → List (Nat × Nat)
  | [] => []
  | e :: rest =>
    if e.dest_null ∨ e.mode = ArgMode.InOutNoScratch then
      scratch_slots scratch_ptr rest
    else
      (scratch_ptr, e.size) :: scratch_slots (align_scratch (scratch_ptr + e.size) none) rest

theorem le_align_scratch (x : Nat) : x ≤ align_scratch x none := by
  simp only [align_scratch, Option.getD]
  omega

theorem reg_step_le (s : Nat) (e : RegEntry) : s ≤ reg_step s e := by
  unfold reg_step
  split
  · exact Nat.le_refl s
  · split
    · exact Nat.le_refl s
    · exact Nat.le_trans (Nat.le_add_right s e.size) (le_align_scratch (s + e.size))

theorem scratch_after_le :
    ∀ (es : List RegEntry) (s : Nat), s ≤ scratch_after s es
  | [], _ => Nat.le_refl _
  | e :: rest, s =>
    Nat.le_trans (reg_step_le s e) (scratch_after_le rest (reg_step s e))

theorem scratch_after_append (s : Nat) (l1 l2 : List RegEntry) :
    scratch_after s (l1 ++ l2) = scratch_after (scratch_after s l1) l2 := by
  simp [scratch_after, List.foldl_append]

theorem reg_step_skip (s : Nat) (e : RegEntry)
    (h : e.dest_null = true ∨ e.mode = ArgMode.InOutNoScratch) :
    reg_step s e = s := by
  unfold reg_step
  rcases h with h | h
  · rw [if_pos h]
  · by_cases hn : e.dest_null
    · rw [if_pos hn]
    · rw [if_neg hn, if_pos h]

theorem reg_step_alloc (s : Nat) (e : RegEntry)
    (h : ¬(e.dest_null = true ∨ e.mode = ArgMode.InOutNoScratch)) :
    reg_step s e = align_scratch (s + e.size) none := by
  push_neg at h
  unfold reg_step
  rw [if_neg (by simp [h.1]), if_neg h.2]

theorem scratch_slots_bounds :
    ∀ (es : List RegEntry) (s : Nat) (p : Nat × Nat), p ∈ scratch_slots s es →
      s ≤ p.1 ∧ p.1 + p.2 ≤ scratch_after s es := by
  intro es
  induction es with
  | nil => intro s p hp; simp [scratch_slots] at hp
  | cons e rest ih =>
    intro s p hp
    by_cases hskip : e.dest_null = true ∨ e.mode = ArgMode.InOutNoScratch
    · rw [scratch_slots, if_pos hskip] at hp
      have : scratch_after s (e :: rest) = scratch_after (reg_step s e) rest := rfl
      rw [this, reg_step_skip s e hskip]
      exact ih s p hp
    · rw [scratch_slots, if_neg hskip] at hp
      have hsa : scratch_after s (e :: rest) =
          scratch_after (align_scratch (s + e.size) none) rest := by
        show scratch_after (reg_step s e) rest = _
        rw [reg_step_alloc s e hskip]
      rcases List.mem_cons.mp hp with rfl | hp'
      · refine ⟨Nat.le_refl _, ?_⟩
        rw [hsa]
        exact Nat.le_trans (le_align_scratch (s + e.size))
          (scratch_after_le rest _)
      · obtain ⟨h1, h2⟩ := ih (align_scratch (s + e.size) none) p hp'
        refine ⟨?_, by rw [hsa]; exact h2⟩
        exact Nat.le_trans
          (Nat.le_trans (Nat.le_add_right s e.size) (le_align_scratch (s + e.size))) h1

theorem scratch_slots_pairwise :
    ∀ (es : List RegEntry) (s : Nat),
      List.Pairwise (fun a b : Nat × Nat => a.1 + a.2 ≤ b.1) (scratch_slots s es) := by
  intro es
  induction es with
  | nil => intro s; simp [scratch_slots]
  | cons e rest ih =>
    intro s
    by_cases hskip : e.dest_null = true ∨ e.mode = ArgMode.InOutNoScratch
    · rw [scratch_slots, if_pos hskip]
      exact ih s
    · rw [scratch_slots, if_neg hskip]
      refine List.Pairwise.cons ?_ (ih _)
      intro p hp
      have h1 := (scratch_slots_bounds rest (align_scratch (s + e.size) none) p hp).1
      exact Nat.le_trans (le_align_scratch (s + e.size)) h1

/-- **C9.** Throughout syscall-entry preparation, `TaskSyscallState::scratch`
advances monotonically from the task's `scratch_ptr` set by `init`: it
never decreases across registrations, each scratch-using registration gets
the slot `[scratch, scratch + incoming_size)` and then bumps `scratch` past
it (8-byte aligned), so successive parameters' scratch slots are pairwise
disjoint and all lie at or above `scratch_ptr`; and whenever the final
scratch pointer is within the task's usable scratch mapping (the bound
`done_preparing` enforces before enabling scratch), every slot lies within
`[scratch_ptr, scratch_ptr + usable_scratch_size]`. -/
theorem task_syscall_state_scratch_invariant
    (scratch_ptr usable : Nat) (es l1 l2 : List RegEntry)
    (hsplit : es = l1 ++ l2)
    (hfit : scratch_after scratch_ptr es ≤ scratch_ptr + usable) :
    scratch_after scratch_ptr [] = scratch_ptr ∧
    scratch_ptr ≤ scratch_after scratch_ptr l1 ∧
    scratch_after scratch_ptr l1 ≤ scratch_after scratch_ptr es ∧
    List.Pairwise (fun a b : Nat × Nat => a.1 + a.2 ≤ b.1)
      (scratch_slots scratch_ptr es) ∧
    (∀ p ∈ scratch_slots scratch_ptr es,
      scratch_ptr ≤ p.1 ∧ p.1 + p.2 ≤ scratch_ptr + usable) := by
  subst hsplit
  refine ⟨rfl, scratch_after_le l1 scratch_ptr, ?_,
    scratch_slots_pairwise (l1 ++ l2) scratch_ptr, ?_⟩
  · rw [scratch_after_append]
    exact scratch_after_le l2 _
  · intro p hp
    obtain ⟨h1, h2⟩ := scratch_slots_bounds (l1 ++ l2) scratch_ptr p hp
    exact ⟨h1, Nat.le_trans h2 hfit⟩

/-- Closed witness for C9: two scratch-using registrations of sizes 10 and 3
starting at `scratch_ptr = 1000` with 100 usable bytes: the final pointer is
1024 (10 rounds to 16, then 3 rounds to 8), and the first slot
`[1000, 1010)` lies within the mapping. -/
theorem task_syscall_state_scratch_invariant_witness :
    scratch_after 1000
        [⟨10, ArgMode.Out, false⟩, ⟨3, ArgMode.In, false⟩] ≤ 1000 + 100 ∧
    (1000 ≤ ((1000, 10) : Nat × Nat).1 ∧
      ((1000, 10) : Nat × Nat).1 + ((1000, 10) : Nat × Nat).2 ≤ 1000 + 100) := by
  have h := task_syscall_state_scratch_invariant 1000 100
    [⟨10, ArgMode.Out, false⟩, ⟨3, ArgMode.In, false⟩]
    [⟨10, ArgMode.Out, false⟩] [⟨3, ArgMode.In, false⟩] rfl (by decide)
  exact ⟨by decide, h.2.2.2.2 (1000, 10) (by decide)⟩

end Rd
